import Mathlib

/-!
Verification of the `code-is-all-you-need` sandbox against its specification.

This file shallowly embeds the relevant JavaScript sources:
  - `src/workspace-sdk.js` (path confinement and the filesystem capabilities),
  - `src/runtime/quickjs-runner.js` (execution lifecycle, deadlines, result shape),
  - `src/cli.js` (delegate-task input normalization, session wiring),
  - `src/agent/session.js` (the agent loop call into `executeCodeBlock`).

POSIX paths are modelled as lists of path segments; the filesystem is an
explicit state threaded through the capability functions; asynchronous host
calls are modelled by oracles describing when and how they settle.
-/

namespace CodeLoop

/-! ## Path model (embedding of `node:path` as used by `workspace-sdk.js`) -/

/-- JavaScript `String.prototype.trim`: strip leading and trailing whitespace
(modelled with `Char.isWhitespace`). -/
def jsTrim (s : String) : String :=
  String.mk (((s.data.dropWhile Char.isWhitespace).reverse.dropWhile
    Char.isWhitespace).reverse)

/-- Splitting a list of characters at every `/`. -/
def splitSlashAux : List Char → List Char → List String
  | [], acc => [String.mk acc.reverse]
  | c :: rest, acc =>
    if c = '/' then String.mk acc.reverse :: splitSlashAux rest []
    else splitSlashAux rest (c :: acc)

/-- Split a path string on the POSIX separator, as `path` does internally. -/
def splitPath (s : String) : List String := splitSlashAux s.data []

/-- Character-level string prefix test, the semantics of JavaScript
`String.prototype.startsWith`. -/
def strStartsWith (s pre : String) : Bool := pre.data.isPrefixOf s.data

/-- `path.isAbsolute` on POSIX: the string starts with a slash. -/
def pathIsAbsolute (s : String) : Bool := strStartsWith s "/"

/-- Normalization of the segments of an absolute path: empty and `.` segments
are dropped, `..` pops the previous segment (or is dropped at the root), as
`path.resolve` does for an absolute input. -/
def normAbsSegs (comps : List String) : List String :=
  comps.foldl
    (fun acc c =>
      if c = "" ∨ c = "." then acc
      else if c = ".." then acc.dropLast
      else acc ++ [c])
    []

/-- `path.resolve(root, input)` where `root` is an already-absolute path given
by its segments: an absolute `input` wins outright, otherwise `input` is
resolved against `root`; the result is the normalized absolute segment list. -/
def pathResolve (rootSegs : List String) (input : String) : List String :=
  if pathIsAbsolute input then normAbsSegs (splitPath input)
  else normAbsSegs (rootSegs ++ splitPath input)

/-- Length of the longest common prefix of two segment lists. -/
def commonPrefixLen : List String → List String → Nat
  | a :: as, b :: bs => if a = b then commonPrefixLen as bs + 1 else 0
  | _, _ => 0

/-- Join path segments with the POSIX separator (the final step of
`path.relative`). -/
def joinSegs : List String → String
  | [] => ""
  | [x] => x
  | x :: rest => x ++ "/" ++ joinSegs rest

/-- `path.relative(from, to)` for two absolute paths given by segments:
walk up out of the non-shared part of `from`, then down into `to`. -/
def pathRelative (fromSegs toSegs : List String) : String :=
  let c := commonPrefixLen fromSegs toSegs
  joinSegs (List.replicate (fromSegs.length - c) ".." ++ toSegs.drop c)

/-! ## Errors -/

deriving instance DecidableEq for Except

/-- Host-side errors surfaced by the workspace SDK: either a `new Error(...)`
thrown by the SDK itself, or an error code coming from `node:fs`. -/
inductive SdkError where
  | jsError (message : String)
  | fsError (code : String)
deriving DecidableEq, Repr

/-- `resolveWithinWorkspace` from `src/workspace-sdk.js` (lines 17-27): resolve
the input against the workspace root, then reject whenever the recovered
relative path climbs out of the root or is absolute. -/
def resolveWithinWorkspace (rootSegs : List String) (relativePath : String) :
    Except SdkError (List String) :=
  let normalizedInput := if relativePath.length ≠ 0 then relativePath else "."
  let absolutePath := pathResolve rootSegs normalizedInput
  let relative := pathRelative rootSegs absolutePath
  if strStartsWith relative ".." || pathIsAbsolute relative then
    .error (.jsError "Access outside the workspace directory is prohibited.")
  else
    .ok absolutePath

/-! ## Lemmas about the confinement check -/

theorem commonPrefixLen_le (a b : List String) : commonPrefixLen a b ≤ a.length := by
  induction a generalizing b with
  | nil => simp [commonPrefixLen]
  | cons x xs ih =>
    cases b with
    | nil => simp [commonPrefixLen]
    | cons y ys =>
      by_cases h : x = y <;> simp [commonPrefixLen, h]
      exact ih ys

theorem prefix_of_commonPrefixLen_eq (a b : List String)
    (h : commonPrefixLen a b = a.length) : a <+: b := by
  induction a generalizing b with
  | nil => exact List.nil_prefix
  | cons x xs ih =>
    cases b with
    | nil => simp [commonPrefixLen] at h
    | cons y ys =>
      by_cases hxy : x = y
      · subst hxy
        simp [commonPrefixLen] at h
        exact (List.prefix_cons_inj x).mpr (ih ys h)
      · simp [commonPrefixLen, hxy] at h

theorem strStartsWith_append (p t : String) : strStartsWith (p ++ t) p = true := by
  simp only [strStartsWith, String.data_append]
  exact List.isPrefixOf_iff_prefix.mpr (List.prefix_append p.data t.data)

theorem str_append_assoc (a b c : String) : a ++ b ++ c = a ++ (b ++ c) := by
  apply String.ext
  simp [String.data_append, List.append_assoc]

theorem joinSegs_dotdot_startsWith (l : List String) :
    strStartsWith (joinSegs (".." :: l)) ".." = true := by
  cases l with
  | nil => decide
  | cons x xs =>
    show strStartsWith (".." ++ "/" ++ joinSegs (x :: xs)) ".." = true
    rw [str_append_assoc]
    exact strStartsWith_append ".." ("/" ++ joinSegs (x :: xs))

/-- If the resolved target does not lie at or below the workspace root, then
the relative path recovered by `path.relative` starts with the `..` marker the
confinement check looks for. -/
theorem escape_relative_startsWith (root A : List String) (h : ¬ root <+: A) :
    strStartsWith (pathRelative root A) ".." = true := by
  have hle := commonPrefixLen_le root A
  have hne : commonPrefixLen root A ≠ root.length := fun he =>
    h (prefix_of_commonPrefixLen_eq root A he)
  have hlt : commonPrefixLen root A < root.length := lt_of_le_of_ne hle hne
  have hpos : 0 < root.length - commonPrefixLen root A := Nat.sub_pos_of_lt hlt
  obtain ⟨k, hk⟩ := Nat.exists_eq_succ_of_ne_zero (Nat.pos_iff_ne_zero.mp hpos)
  show strStartsWith
      (joinSegs (List.replicate (root.length - commonPrefixLen root A) ".." ++
        A.drop (commonPrefixLen root A))) ".." = true
  rw [hk, List.replicate_succ, List.cons_append]
  exact joinSegs_dotdot_startsWith _

/-- The resolved absolute target of a capability path argument `p`: the code
trims `p`, substitutes `"."` when the trimmed string is empty (directly for
`listFiles`, and vacuously for the other capabilities, which reject empty
trimmed arguments before resolving), and resolves against the root. -/
def resolvedTarget (rootSegs : List String) (p : String) : List String :=
  pathResolve rootSegs (if (jsTrim p).length ≠ 0 then jsTrim p else ".")

/-- A path argument escapes the workspace when its resolved absolute target
neither equals nor descends from the workspace root. -/
def escapesWorkspace (rootSegs : List String) (p : String) : Prop :=
  ¬ (rootSegs <+: resolvedTarget rootSegs p)

instance (rootSegs : List String) (p : String) :
    Decidable (escapesWorkspace rootSegs p) := by
  unfold escapesWorkspace
  infer_instance

/-- A path argument whose resolved target does not lie at or below the root
makes `resolveWithinWorkspace` reject. -/
theorem resolveWithinWorkspace_escape (rootSegs : List String) (q : String)
    (h : ¬ rootSegs <+: pathResolve rootSegs (if q.length ≠ 0 then q else ".")) :
    resolveWithinWorkspace rootSegs q =
      .error (.jsError "Access outside the workspace directory is prohibited.") := by
  show (if (strStartsWith
        (pathRelative rootSegs (pathResolve rootSegs (if q.length ≠ 0 then q else ".")))
        ".." ||
      pathIsAbsolute
        (pathRelative rootSegs (pathResolve rootSegs (if q.length ≠ 0 then q else ".")))) =
        true then
      Except.error (SdkError.jsError "Access outside the workspace directory is prohibited.")
    else Except.ok (pathResolve rootSegs (if q.length ≠ 0 then q else "."))) =
    Except.error (SdkError.jsError "Access outside the workspace directory is prohibited.")
  rw [escape_relative_startsWith _ _ h]
  simp

/-! ## Filesystem model (the `node:fs/promises` primitives used by the SDK) -/

/-- A filesystem snapshot: an association of absolute paths to file contents,
plus the set of existing directories. -/
structure FsState where
  files : List (List String × String)
  dirs : List (List String)
deriving DecidableEq, Repr

def lookupFile (files : List (List String × String)) (p : List String) : Option String :=
  match files with
  | [] => none
  | (q, t) :: rest => if q = p then some t else lookupFile rest p

def insertFile (files : List (List String × String)) (p : List String) (t : String) :
    List (List String × String) :=
  match files with
  | [] => [(p, t)]
  | (q, u) :: rest => if q = p then (p, t) :: rest else (q, u) :: insertFile rest p t

def removeFile (files : List (List String × String)) (p : List String) :
    List (List String × String) :=
  files.filter (fun e => e.1 ≠ p)

def isFile (fs : FsState) (p : List String) : Bool := (lookupFile fs.files p).isSome

def isDir (fs : FsState) (p : List String) : Bool := fs.dirs.contains p

/-- All initial segments of a path, from the filesystem root `[]` down to the
path itself. -/
def pathPrefixes (p : List String) : List (List String) :=
  (List.range (p.length + 1)).map (fun n => p.take n)

/-- `fs.mkdir(p, { recursive: true })`: fails when a file occupies any point of
the directory chain, otherwise records every missing ancestor directory. -/
def mkdirRecursive (p : List String) (fs : FsState) : Except SdkError FsState :=
  if (pathPrefixes p).any (fun q => isFile fs q) then .error (.fsError "ENOTDIR")
  else .ok { fs with
    dirs := fs.dirs ++ (pathPrefixes p).filter (fun q => !(fs.dirs.contains q)) }

/-- `fs.readFile(p, 'utf8')`. -/
def fsReadFile (p : List String) (fs : FsState) : Except SdkError String :=
  if isDir fs p then .error (.fsError "EISDIR")
  else
    match lookupFile fs.files p with
    | some t => .ok t
    | none => .error (.fsError "ENOENT")

/-- `fs.writeFile(p, text, 'utf8')`. -/
def fsWriteFile (p : List String) (text : String) (fs : FsState) :
    Except SdkError FsState :=
  if isDir fs p then .error (.fsError "EISDIR")
  else .ok { fs with files := insertFile fs.files p text }

inductive StatKind where
  | file
  | directory
deriving DecidableEq, Repr

/-- `fs.lstat(p)`, reduced to the distinction `deletePath` consumes. -/
def fsLstat (p : List String) (fs : FsState) : Except SdkError StatKind :=
  if isFile fs p then .ok .file
  else if isDir fs p then .ok .directory
  else .error (.fsError "ENOENT")

/-- Whether anything lives strictly below `p`. -/
def hasChild (fs : FsState) (p : List String) : Bool :=
  fs.dirs.any (fun q => p.isPrefixOf q && q ≠ p) ||
    fs.files.any (fun e => p.isPrefixOf e.1 && e.1 ≠ p)

/-- `fs.rmdir(p)`: only removes an existing empty directory. -/
def fsRmdir (p : List String) (fs : FsState) : Except SdkError FsState :=
  if !isDir fs p then .error (.fsError "ENOENT")
  else if hasChild fs p then .error (.fsError "ENOTEMPTY")
  else .ok { fs with dirs := fs.dirs.filter (fun q => q ≠ p) }

/-- `fs.unlink(p)`. -/
def fsUnlink (p : List String) (fs : FsState) : Except SdkError FsState :=
  if isFile fs p then .ok { fs with files := removeFile fs.files p }
  else .error (.fsError "ENOENT")

/-- `fs.readdir(p, { withFileTypes: true })`, returning each direct entry with
its kind. -/
def fsReaddir (p : List String) (fs : FsState) :
    Except SdkError (List (String × StatKind)) :=
  if isFile fs p then .error (.fsError "ENOTDIR")
  else if !isDir fs p then .error (.fsError "ENOENT")
  else
    let dirEntries := (fs.dirs.filter
      (fun q => p.isPrefixOf q && q.length = p.length + 1)).filterMap
        (fun q => q.getLast?.map (fun n => (n, StatKind.directory)))
    let fileEntries := (fs.files.filter
      (fun e => p.isPrefixOf e.1 && e.1.length = p.length + 1)).filterMap
        (fun e => e.1.getLast?.map (fun n => (n, StatKind.file)))
    .ok (dirEntries ++ fileEntries)

/-! ## The workspace SDK state monad

`createWorkspaceSdk` closes over a mutable `workspaceReady` flag and performs
effects on the host filesystem; both are threaded explicitly. An error carries
the state at the point of the throw, so state preservation on rejection is a
provable statement rather than a convention. -/

structure WsState where
  fs : FsState
  workspaceReady : Bool
deriving DecidableEq, Repr

inductive WsResult (α : Type) where
  | ok (a : α) (st : WsState)
  | error (e : SdkError) (st : WsState)
deriving DecidableEq, Repr

def WsM (α : Type) : Type := WsState → WsResult α

instance : Monad WsM where
  pure a := fun st => .ok a st
  bind m f := fun st =>
    match m st with
    | .ok a st' => f a st'
    | .error e st' => .error e st'

theorem wsm_pure_apply (a : α) (st : WsState) :
    (pure a : WsM α) st = .ok a st := rfl

theorem wsm_bind_apply (m : WsM α) (f : α → WsM β) (st : WsState) :
    (m >>= f) st =
      match m st with
      | .ok a st' => f a st'
      | .error e st' => .error e st' := rfl

def wsThrow (e : SdkError) : WsM α := fun st => .error e st

def wsGet : WsM WsState := fun st => .ok st st

def wsSet (st' : WsState) : WsM Unit := fun _ => .ok () st'

/-- Run a pure `Except` computation (an `await` that may throw). -/
def liftExcept : Except SdkError α → WsM α
  | .ok a => pure a
  | .error e => wsThrow e

/-- Run a filesystem-mutating primitive. -/
def liftFsOp (op : FsState → Except SdkError FsState) : WsM Unit := do
  let st ← wsGet
  match op st.fs with
  | .ok fs' => wsSet { st with fs := fs' }
  | .error e => wsThrow e

/-- Run a filesystem query. -/
def liftFsQuery (op : FsState → Except SdkError α) : WsM α := do
  let st ← wsGet
  liftExcept (op st.fs)

/-! ## The workspace SDK (`src/workspace-sdk.js`)

`withDeadline(promise, deadlineInfo, label)` is the identity on the promise
when no deadline is active (first branch of `withDeadline`); the filesystem
claims below are deadline-independent, so the capabilities are embedded at
that identity. The root is represented by its resolved segment list
(`normalizedRoot = path.resolve(workspaceRoot)`). -/

/-- A value passed as `contents` to `writeFile`: either a JavaScript string,
or a non-string value described by what `JSON.stringify(value, null, 2)`
does on it (`some` of the serialized text, or `none` when serialization
throws) together with its `String(value)` rendering. -/
inductive SdkContents where
  | str (s : String)
  | nonString (json : Option String) (stringRepr : String)
deriving DecidableEq, Repr

/-- `stringify` from `src/workspace-sdk.js` (lines 119-128): strings pass
through; otherwise `JSON.stringify(value, null, 2)`, falling back to
`String(value)` when it throws. -/
def stringify : SdkContents → String
  | .str s => s
  | .nonString (some t) _ => t
  | .nonString none r => r

/-- `requirePathArgument`: rejects when the trimmed argument is empty,
otherwise yields the trimmed path. -/
def requirePathArgument (value : String) (fnName : String) : Except SdkError String :=
  if jsTrim value = "" then
    .error (.jsError (fnName ++ " requires a non-empty path string."))
  else .ok (jsTrim value)

/-- `normalizeOptionalPath`: empty-after-trim arguments become `"."`. -/
def normalizeOptionalPath (value : String) : String :=
  if jsTrim value = "" then "." else jsTrim value

/-- `summarizeWrite`: serialized text together with its character count. -/
structure WritePayload where
  text : String
  length : Nat
  relativePath : String

def summarizeWrite (relativePath : String) (contents : SdkContents) : WritePayload :=
  let text := match contents with
    | .str s => s
    | c => stringify c
  { text := text, length := text.length, relativePath := relativePath }

/-- `ensureWorkspaceRootExists`: lazily and idempotently create the workspace
root directory, recording readiness in the closed-over flag. -/
def ensureWorkspaceRootExists (rootSegs : List String) : WsM Unit := do
  let st ← wsGet
  if st.workspaceReady then pure ()
  else do
    liftFsOp (mkdirRecursive rootSegs)
    let st' ← wsGet
    wsSet { st' with workspaceReady := true }

/-- `readFile(relativePath)` from `src/workspace-sdk.js` (lines 57-62). -/
def readFile (rootSegs : List String) (relativePath : String) : WsM String := do
  let pathArg ← liftExcept (requirePathArgument relativePath "readFile")
  let absolute ← liftExcept (resolveWithinWorkspace rootSegs pathArg)
  ensureWorkspaceRootExists rootSegs
  liftFsQuery (fsReadFile absolute)

/-- `writeFile(relativePath, contents)` from `src/workspace-sdk.js`
(lines 64-72). -/
def writeFile (rootSegs : List String) (relativePath : String)
    (contents : SdkContents) : WsM String := do
  let pathArg ← liftExcept (requirePathArgument relativePath "writeFile")
  let absolute ← liftExcept (resolveWithinWorkspace rootSegs pathArg)
  ensureWorkspaceRootExists rootSegs
  let payload := summarizeWrite pathArg contents
  liftFsOp (mkdirRecursive absolute.dropLast)
  liftFsOp (fsWriteFile absolute payload.text)
  pure ("Wrote " ++ toString payload.length ++ " characters to " ++ pathArg)

/-- `listFiles(relativePath)` from `src/workspace-sdk.js` (lines 74-83). -/
def listFiles (rootSegs : List String) (relativePath : String) :
    WsM (List (String × StatKind)) := do
  let pathArg := normalizeOptionalPath relativePath
  let absolute ← liftExcept (resolveWithinWorkspace rootSegs pathArg)
  ensureWorkspaceRootExists rootSegs
  liftFsQuery (fsReaddir absolute)

/-- `deletePath(relativePath)` from `src/workspace-sdk.js` (lines 85-108). -/
def deletePath (rootSegs : List String) (relativePath : String) : WsM Bool := do
  let pathArg ← liftExcept (requirePathArgument relativePath "deletePath")
  let absolute ← liftExcept (resolveWithinWorkspace rootSegs pathArg)
  if absolute = rootSegs then
    wsThrow (.jsError "deletePath cannot remove the workspace root directory.")
  else do
    ensureWorkspaceRootExists rootSegs
    let st ← wsGet
    match fsLstat absolute st.fs with
    | .error e =>
      if e = .fsError "ENOENT" then pure false
      else wsThrow e
    | .ok stats => do
      if stats = .directory then liftFsOp (fsRmdir absolute)
      else liftFsOp (fsUnlink absolute)
      pure true

/-! ## C1: escaping paths are rejected before any filesystem effect -/

/-- C1: for every path argument to a filesystem capability (`readFile`,
`writeFile`, `listFiles`, `deletePath`) whose resolution against the workspace
root escapes the root, and for any workspace root, the call rejects with an
error before any filesystem access: the state (filesystem and readiness flag)
returned alongside the error is exactly the input state, so nothing is
created, read, modified, or deleted. -/
theorem c1_escaping_path_rejected_before_any_effect
    (rootSegs : List String) (p : String) (st : WsState)
    (h : escapesWorkspace rootSegs p) :
    (∃ e, readFile rootSegs p st = .error e st) ∧
    (∀ contents, ∃ e, writeFile rootSegs p contents st = .error e st) ∧
    (∃ e, listFiles rootSegs p st = .error e st) ∧
    (∃ e, deletePath rootSegs p st = .error e st) := by
  unfold escapesWorkspace resolvedTarget at h
  by_cases htrim : jsTrim p = ""
  · have h' : ¬ rootSegs <+: pathResolve rootSegs "." := by
      simpa [htrim] using h
    have hres : resolveWithinWorkspace rootSegs "." =
        .error (.jsError "Access outside the workspace directory is prohibited.") :=
      resolveWithinWorkspace_escape rootSegs "." (by simpa [ite_self] using h')
    refine ⟨⟨.jsError "readFile requires a non-empty path string.", ?_⟩,
      fun contents => ⟨.jsError "writeFile requires a non-empty path string.", ?_⟩,
      ⟨.jsError "Access outside the workspace directory is prohibited.", ?_⟩,
      ⟨.jsError "deletePath requires a non-empty path string.", ?_⟩⟩
    · simp [readFile, wsm_bind_apply, requirePathArgument, htrim, liftExcept, wsThrow]
    · simp [writeFile, wsm_bind_apply, requirePathArgument, htrim, liftExcept, wsThrow]
    · simp [listFiles, wsm_bind_apply, normalizeOptionalPath, htrim, hres, liftExcept,
        wsThrow]
    · simp [deletePath, wsm_bind_apply, requirePathArgument, htrim, liftExcept, wsThrow]
  · have hres : resolveWithinWorkspace rootSegs (jsTrim p) =
        .error (.jsError "Access outside the workspace directory is prohibited.") :=
      resolveWithinWorkspace_escape rootSegs (jsTrim p) h
    refine ⟨⟨.jsError "Access outside the workspace directory is prohibited.", ?_⟩,
      fun contents =>
        ⟨.jsError "Access outside the workspace directory is prohibited.", ?_⟩,
      ⟨.jsError "Access outside the workspace directory is prohibited.", ?_⟩,
      ⟨.jsError "Access outside the workspace directory is prohibited.", ?_⟩⟩
    · simp [readFile, wsm_bind_apply, requirePathArgument, htrim, hres, liftExcept,
        wsThrow, wsm_pure_apply]
    · simp [writeFile, wsm_bind_apply, requirePathArgument, htrim, hres, liftExcept,
        wsThrow, wsm_pure_apply]
    · simp [listFiles, wsm_bind_apply, normalizeOptionalPath, htrim, hres, liftExcept,
        wsThrow, wsm_pure_apply]
    · simp [deletePath, wsm_bind_apply, requirePathArgument, htrim, hres, liftExcept,
        wsThrow, wsm_pure_apply]

/-- Witness for C1 at a concrete escaping input: root `/w`, path
`../etc/passwd`, empty filesystem. -/
theorem c1_escaping_path_rejected_before_any_effect_witness :
    escapesWorkspace ["w"] "../etc/passwd" ∧
    ((∃ e, readFile ["w"] "../etc/passwd" ⟨⟨[], []⟩, false⟩ =
        .error e ⟨⟨[], []⟩, false⟩) ∧
      (∀ contents, ∃ e, writeFile ["w"] "../etc/passwd" contents ⟨⟨[], []⟩, false⟩ =
        .error e ⟨⟨[], []⟩, false⟩) ∧
      (∃ e, listFiles ["w"] "../etc/passwd" ⟨⟨[], []⟩, false⟩ =
        .error e ⟨⟨[], []⟩, false⟩) ∧
      (∃ e, deletePath ["w"] "../etc/passwd" ⟨⟨[], []⟩, false⟩ =
        .error e ⟨⟨[], []⟩, false⟩)) :=
  ⟨by decide,
    c1_escaping_path_rejected_before_any_effect ["w"] "../etc/passwd"
      ⟨⟨[], []⟩, false⟩ (by decide)⟩

/-! ## C7: `deletePath` root refusal, missing target, and removal -/

/-- C7: `deletePath(p)` throws when `p` resolves to the workspace root itself
(leaving the state untouched); returns `false` (not an error) when the target
does not exist; and returns `true` after removing an existing file or an
existing (empty) directory — `fs.rmdir` only removes empty directories, and
a non-empty one makes the call reject instead. -/
theorem c7_deletePath_behavior (rootSegs : List String) (p : String)
    (st : WsState) :
    (∀ q, requirePathArgument p "deletePath" = .ok q →
      resolveWithinWorkspace rootSegs q = .ok rootSegs →
      deletePath rootSegs p st =
        .error (.jsError "deletePath cannot remove the workspace root directory.") st) ∧
    (∀ q A st1, requirePathArgument p "deletePath" = .ok q →
      resolveWithinWorkspace rootSegs q = .ok A → A ≠ rootSegs →
      ensureWorkspaceRootExists rootSegs st = .ok () st1 →
      fsLstat A st1.fs = .error (.fsError "ENOENT") →
      deletePath rootSegs p st = .ok false st1) ∧
    (∀ q A st1, requirePathArgument p "deletePath" = .ok q →
      resolveWithinWorkspace rootSegs q = .ok A → A ≠ rootSegs →
      ensureWorkspaceRootExists rootSegs st = .ok () st1 →
      isFile st1.fs A = true →
      deletePath rootSegs p st =
        .ok true ⟨⟨removeFile st1.fs.files A, st1.fs.dirs⟩, st1.workspaceReady⟩) ∧
    (∀ q A st1, requirePathArgument p "deletePath" = .ok q →
      resolveWithinWorkspace rootSegs q = .ok A → A ≠ rootSegs →
      ensureWorkspaceRootExists rootSegs st = .ok () st1 →
      isFile st1.fs A = false → isDir st1.fs A = true → hasChild st1.fs A = false →
      deletePath rootSegs p st =
        .ok true
          ⟨⟨st1.fs.files, st1.fs.dirs.filter (fun q => q ≠ A)⟩, st1.workspaceReady⟩) := by
  refine ⟨?_, ?_, ?_, ?_⟩
  · intro q hreq hres
    simp [deletePath, wsm_bind_apply, hreq, hres, liftExcept, wsThrow, wsm_pure_apply]
  · intro q A st1 hreq hres hne hens hstat
    simp [deletePath, wsm_bind_apply, hreq, hres, hne, hens, hstat, liftExcept,
      wsThrow, wsm_pure_apply, wsGet]
  · intro q A st1 hreq hres hne hens hfile
    have hstat : fsLstat A st1.fs = .ok .file := by simp [fsLstat, hfile]
    simp [deletePath, wsm_bind_apply, hreq, hres, hne, hens, hstat, liftExcept,
      wsThrow, wsm_pure_apply, wsGet, liftFsOp, fsUnlink, hfile, wsSet]
  · intro q A st1 hreq hres hne hens hfile hdir hchild
    have hstat : fsLstat A st1.fs = .ok .directory := by simp [fsLstat, hfile, hdir]
    simp [deletePath, wsm_bind_apply, hreq, hres, hne, hens, hstat, liftExcept,
      wsThrow, wsm_pure_apply, wsGet, liftFsOp, fsRmdir, hdir, hchild, wsSet]

/-- Witness for C7 at concrete inputs: root `/w`; the root-deletion attempt on
`"."`, a missing `nope.txt` in a fresh workspace, an existing file `a.txt`,
and an existing empty directory `d`. -/
theorem c7_deletePath_behavior_witness :
    (deletePath ["w"] "." ⟨⟨[], []⟩, false⟩ =
      .error (.jsError "deletePath cannot remove the workspace root directory.")
        ⟨⟨[], []⟩, false⟩) ∧
    (deletePath ["w"] "nope.txt" ⟨⟨[], []⟩, false⟩ =
      .ok false ⟨⟨[], [[], ["w"]]⟩, true⟩) ∧
    (deletePath ["w"] "a.txt" ⟨⟨[(["w", "a.txt"], "hi")], [[], ["w"]]⟩, true⟩ =
      .ok true ⟨⟨[], [[], ["w"]]⟩, true⟩) ∧
    (deletePath ["w"] "d" ⟨⟨[], [[], ["w"], ["w", "d"]]⟩, true⟩ =
      .ok true ⟨⟨[], [[], ["w"]]⟩, true⟩) := by
  have h1 := (c7_deletePath_behavior ["w"] "." ⟨⟨[], []⟩, false⟩).1 "."
    (by decide) (by decide)
  have h2 := (c7_deletePath_behavior ["w"] "nope.txt" ⟨⟨[], []⟩, false⟩).2.1
    "nope.txt" ["w", "nope.txt"] ⟨⟨[], [[], ["w"]]⟩, true⟩
    (by decide) (by decide) (by decide) (by decide) (by decide)
  have h3 := (c7_deletePath_behavior ["w"] "a.txt"
      ⟨⟨[(["w", "a.txt"], "hi")], [[], ["w"]]⟩, true⟩).2.2.1
    "a.txt" ["w", "a.txt"] ⟨⟨[(["w", "a.txt"], "hi")], [[], ["w"]]⟩, true⟩
    (by decide) (by decide) (by decide) (by decide) (by decide)
  have h4 := (c7_deletePath_behavior ["w"] "d"
      ⟨⟨[], [[], ["w"], ["w", "d"]]⟩, true⟩).2.2.2
    "d" ["w", "d"] ⟨⟨[], [[], ["w"], ["w", "d"]]⟩, true⟩
    (by decide) (by decide) (by decide) (by decide) (by decide) (by decide)
    (by decide)
  refine ⟨h1, h2, ?_, ?_⟩
  · rw [h3]; decide
  · rw [h4]; decide

/-! ## C5 and C10: write/read round trips -/

theorem requirePathArgument_ok_iff (p f q : String) :
    requirePathArgument p f = .ok q ↔ (jsTrim p ≠ "" ∧ q = jsTrim p) := by
  unfold requirePathArgument
  by_cases h : jsTrim p = "" <;> simp [h, eq_comm]

theorem summarizeWrite_text (q : String) (c : SdkContents) :
    (summarizeWrite q c).text = stringify c := by
  cases c <;> rfl

theorem summarizeWrite_length (q : String) (c : SdkContents) :
    (summarizeWrite q c).length = (stringify c).length := by
  cases c <;> rfl

theorem lookupFile_insertFile (files : List (List String × String))
    (p : List String) (t : String) :
    lookupFile (insertFile files p t) p = some t := by
  induction files with
  | nil => simp [insertFile, lookupFile]
  | cons e rest ih =>
    obtain ⟨q, u⟩ := e
    by_cases h : q = p <;> simp [insertFile, lookupFile, h, ih]

theorem ensure_ok_ready (root : List String) (st st1 : WsState)
    (h : ensureWorkspaceRootExists root st = .ok () st1) :
    st1.workspaceReady = true := by
  by_cases hr : st.workspaceReady
  · simp [ensureWorkspaceRootExists, wsm_bind_apply, wsGet, hr, wsm_pure_apply] at h
    rw [← h]; exact hr
  · cases hmk : mkdirRecursive root st.fs with
    | error e =>
      simp [ensureWorkspaceRootExists, wsm_bind_apply, wsGet, hr, liftFsOp, hmk,
        wsThrow] at h
    | ok fs' =>
      simp [ensureWorkspaceRootExists, wsm_bind_apply, wsGet, hr, liftFsOp, hmk,
        wsSet] at h
      rw [← h]

theorem ensure_noop_of_ready (root : List String) (st : WsState)
    (h : st.workspaceReady = true) :
    ensureWorkspaceRootExists root st = .ok () st := by
  simp [ensureWorkspaceRootExists, wsm_bind_apply, wsGet, h, wsm_pure_apply]

/-- General write-then-read lemma: when the trimmed path resolves inside the
workspace, the root directory and the parent chain can be created, and the
target is not itself an existing directory, `writeFile` stores the serialized
text and reports its character count, and `readFile` on the same argument
returns exactly that text. -/
theorem writeFile_then_readFile (rootSegs : List String) (p : String)
    (contents : SdkContents) (st : WsState) (q : String) (A : List String)
    (st1 : WsState) (fs2 : FsState)
    (hreq : requirePathArgument p "writeFile" = .ok q)
    (hres : resolveWithinWorkspace rootSegs q = .ok A)
    (hens : ensureWorkspaceRootExists rootSegs st = .ok () st1)
    (hmk : mkdirRecursive A.dropLast st1.fs = .ok fs2)
    (hdirA : isDir fs2 A = false) :
    writeFile rootSegs p contents st =
      .ok ("Wrote " ++ toString (stringify contents).length ++ " characters to " ++ q)
        ⟨⟨insertFile fs2.files A (stringify contents), fs2.dirs⟩, st1.workspaceReady⟩ ∧
    readFile rootSegs p
        ⟨⟨insertFile fs2.files A (stringify contents), fs2.dirs⟩,
          st1.workspaceReady⟩ =
      .ok (stringify contents)
        ⟨⟨insertFile fs2.files A (stringify contents), fs2.dirs⟩,
          st1.workspaceReady⟩ := by
  have hq := (requirePathArgument_ok_iff p "writeFile" q).mp hreq
  have hreqRead : requirePathArgument p "readFile" = .ok q :=
    (requirePathArgument_ok_iff p "readFile" q).mpr hq
  have hready := ensure_ok_ready rootSegs st st1 hens
  constructor
  · have hwrite : fsWriteFile A (stringify contents)
        fs2 = .ok { fs2 with files := insertFile fs2.files A (stringify contents) } := by
      simp [fsWriteFile, hdirA]
    cases contents with
    | str s =>
      simp [writeFile, wsm_bind_apply, hreq, hres, hens, liftExcept, liftFsOp,
        wsGet, wsSet, hmk, wsm_pure_apply, summarizeWrite, stringify] at hwrite ⊢
      simp [fsWriteFile, hdirA]
      rfl
    | nonString j r =>
      simp [writeFile, wsm_bind_apply, hreq, hres, hens, liftExcept, liftFsOp,
        wsGet, wsSet, hmk, wsm_pure_apply, summarizeWrite] at hwrite ⊢
      simp [fsWriteFile, hdirA]
      rfl
  · have hdir' : isDir ⟨insertFile fs2.files A (stringify contents), fs2.dirs⟩ A
        = false := hdirA
    have hlk := lookupFile_insertFile fs2.files A (stringify contents)
    have hens2 := ensure_noop_of_ready rootSegs
      ⟨⟨insertFile fs2.files A (stringify contents), fs2.dirs⟩, st1.workspaceReady⟩
      (by simpa using hready)
    simp [readFile, wsm_bind_apply, hreqRead, hres, liftExcept, hens2,
      liftFsQuery, wsGet, fsReadFile, hdir', hlk, wsm_pure_apply]

/-- C5 counterexample: the round trip does not hold for every non-empty
relative path inside the workspace. After `writeFile("a/b", "x")` creates
directory `a`, the pair `writeFile("a", "hi")` / `readFile("a")` on the
in-workspace path `a` fails with `EISDIR` instead of returning `"hi"`. -/
theorem c5_roundtrip_counterexample :
    (writeFile ["w"] "a/b" (.str "x") ⟨⟨[], []⟩, false⟩ =
      .ok "Wrote 1 characters to a/b"
        ⟨⟨[(["w", "a", "b"], "x")], [[], ["w"], ["w", "a"]]⟩, true⟩) ∧
    (["w"] <+: ["w", "a"]) ∧
    (resolveWithinWorkspace ["w"] "a" = .ok ["w", "a"]) ∧
    (writeFile ["w"] "a" (.str "hi")
        ⟨⟨[(["w", "a", "b"], "x")], [[], ["w"], ["w", "a"]]⟩, true⟩ =
      .error (.fsError "EISDIR")
        ⟨⟨[(["w", "a", "b"], "x")], [[], ["w"], ["w", "a"]]⟩, true⟩) ∧
    (readFile ["w"] "a"
        ⟨⟨[(["w", "a", "b"], "x")], [[], ["w"], ["w", "a"]]⟩, true⟩ =
      .error (.fsError "EISDIR")
        ⟨⟨[(["w", "a", "b"], "x")], [[], ["w"], ["w", "a"]]⟩, true⟩) := by
  decide

/-- C5 (amended): for any relative path `p` that is non-empty after trimming,
resolves inside the workspace, whose parent chain can be created, and whose
resolved target is not an existing directory, `writeFile(p, text)` followed by
`readFile(p)` returns exactly `text`. -/
theorem c5_amended_write_read_roundtrip (rootSegs : List String) (p text : String)
    (st : WsState) (q : String) (A : List String) (st1 : WsState) (fs2 : FsState)
    (hreq : requirePathArgument p "writeFile" = .ok q)
    (hres : resolveWithinWorkspace rootSegs q = .ok A)
    (hens : ensureWorkspaceRootExists rootSegs st = .ok () st1)
    (hmk : mkdirRecursive A.dropLast st1.fs = .ok fs2)
    (hdirA : isDir fs2 A = false) :
    writeFile rootSegs p (.str text) st =
      .ok ("Wrote " ++ toString text.length ++ " characters to " ++ q)
        ⟨⟨insertFile fs2.files A text, fs2.dirs⟩, st1.workspaceReady⟩ ∧
    readFile rootSegs p
        ⟨⟨insertFile fs2.files A text, fs2.dirs⟩, st1.workspaceReady⟩ =
      .ok text ⟨⟨insertFile fs2.files A text, fs2.dirs⟩, st1.workspaceReady⟩ := by
  simpa [stringify] using
    writeFile_then_readFile rootSegs p (.str text) st q A st1 fs2 hreq hres hens
      hmk hdirA

/-- Witness for the amended C5 at a concrete input: root `/w`, the path
`" notes.txt "` (trimmed to `notes.txt`), text `hello`, fresh workspace. -/
theorem c5_amended_write_read_roundtrip_witness :
    writeFile ["w"] " notes.txt " (.str "hello") ⟨⟨[], []⟩, false⟩ =
      .ok ("Wrote " ++ toString "hello".length ++ " characters to " ++ "notes.txt")
        ⟨⟨insertFile [] ["w", "notes.txt"] "hello", [[], ["w"]]⟩, true⟩ ∧
    readFile ["w"] " notes.txt "
        ⟨⟨insertFile [] ["w", "notes.txt"] "hello", [[], ["w"]]⟩, true⟩ =
      .ok "hello" ⟨⟨insertFile [] ["w", "notes.txt"] "hello", [[], ["w"]]⟩, true⟩ :=
  c5_amended_write_read_roundtrip ["w"] " notes.txt " "hello" ⟨⟨[], []⟩, false⟩
    "notes.txt" ["w", "notes.txt"] ⟨⟨[], [[], ["w"]]⟩, true⟩ ⟨[], [[], ["w"]]⟩
    (by decide) (by decide) (by decide) (by decide) (by decide)

/-- C10: for any non-string contents value, `writeFile(p, contents)` writes
the `JSON.stringify(contents, null, 2)` text (falling back to
`String(contents)` when serialization throws — `j.getD r` below), a subsequent
`readFile(p)` returns that serialized text rather than the original value, and
the returned status message reports the serialized character count. -/
theorem c10_writeFile_serializes_nonstring (rootSegs : List String) (p : String)
    (j : Option String) (r : String) (st : WsState) (q : String)
    (A : List String) (st1 : WsState) (fs2 : FsState)
    (hreq : requirePathArgument p "writeFile" = .ok q)
    (hres : resolveWithinWorkspace rootSegs q = .ok A)
    (hens : ensureWorkspaceRootExists rootSegs st = .ok () st1)
    (hmk : mkdirRecursive A.dropLast st1.fs = .ok fs2)
    (hdirA : isDir fs2 A = false) :
    writeFile rootSegs p (.nonString j r) st =
      .ok ("Wrote " ++ toString (j.getD r).length ++ " characters to " ++ q)
        ⟨⟨insertFile fs2.files A (j.getD r), fs2.dirs⟩, st1.workspaceReady⟩ ∧
    readFile rootSegs p
        ⟨⟨insertFile fs2.files A (j.getD r), fs2.dirs⟩, st1.workspaceReady⟩ =
      .ok (j.getD r)
        ⟨⟨insertFile fs2.files A (j.getD r), fs2.dirs⟩, st1.workspaceReady⟩ := by
  have hstr : stringify (.nonString j r) = j.getD r := by cases j <;> rfl
  simpa [hstr] using
    writeFile_then_readFile rootSegs p (.nonString j r) st q A st1 fs2 hreq hres
      hens hmk hdirA

/-- Witness for C10 at a concrete input: a non-string value whose
serialization is `[1]`, written to `data.json` in a fresh workspace. -/
theorem c10_writeFile_serializes_nonstring_witness :
    writeFile ["w"] "data.json" (.nonString (some "[1]") "[object Object]")
        ⟨⟨[], []⟩, false⟩ =
      .ok ("Wrote " ++ toString ((some "[1]").getD "[object Object]").length ++
          " characters to " ++ "data.json")
        ⟨⟨insertFile [] ["w", "data.json"] ((some "[1]").getD "[object Object]"),
          [[], ["w"]]⟩, true⟩ ∧
    readFile ["w"] "data.json"
        ⟨⟨insertFile [] ["w", "data.json"] ((some "[1]").getD "[object Object]"),
          [[], ["w"]]⟩, true⟩ =
      .ok ((some "[1]").getD "[object Object]")
        ⟨⟨insertFile [] ["w", "data.json"] ((some "[1]").getD "[object Object]"),
          [[], ["w"]]⟩, true⟩ :=
  c10_writeFile_serializes_nonstring ["w"] "data.json" (some "[1]")
    "[object Object]" ⟨⟨[], []⟩, false⟩ "data.json" ["w", "data.json"]
    ⟨⟨[], [[], ["w"]]⟩, true⟩ ⟨[], [[], ["w"]]⟩
    (by decide) (by decide) (by decide) (by decide) (by decide)

/-! ## The execution lifecycle (`src/runtime/quickjs-runner.js`)

Wall-clock time is modelled by rational instants measured from the start of
the execution (`performance.now()` and `Date.now()` at lines 17 and 28 are
identified with instant `0`). What the guest evaluation does is an oracle:
how long the synchronous `vm.evalCode` phase took and whether/when/how the
wrapped promise settles. Host stack strings of freshly constructed `Error`
objects are abstracted to `none` (null); only their presence matters to the
claims. -/

/-- A host-native value dumped out of the guest (`vm.dump`): primitives are
explicit; arrays/objects are represented by what `JSON.stringify(v, null, 2)`
and `String(v)` produce on them. -/
inductive JsValue where
  | undef
  | nullV
  | bool (b : Bool)
  | num (q : ℤ)
  | str (s : String)
  | other (json : Option String) (stringRepr : String)
deriving DecidableEq, Repr

/-- JavaScript number-to-string conversion for the (integral) numbers that
occur here. -/
def jsNumToString (q : ℤ) : String := toString q

/-- `stringify` from `src/runtime/quickjs-runner.js` (lines 379-394):
`undefined` and `null` render literally, strings pass through, everything else
is `JSON.stringify(value, null, 2)` with a `String(value)` fallback. -/
def runnerStringify : JsValue → String
  | .undef => "undefined"
  | .nullV => "null"
  | .str s => s
  | .bool b => if b then "true" else "false"
  | .num q => jsNumToString q
  | .other (some j) _ => j
  | .other none r => r

/-- One captured console entry. -/
structure LogEntry where
  level : String
  text : String
deriving DecidableEq, Repr

/-- `createDeadlineInfo` (lines 328-336): a non-finite or non-positive
`timeoutMs` (modelled as `none` respectively `some t` with `t ≤ 0`) means no
deadline; otherwise the deadline is `now + timeoutMs`. -/
structure DeadlineInfo where
  timeoutMs : ℤ
  deadline : ℤ
deriving DecidableEq, Repr

def createDeadlineInfo (timeoutMs : Option ℤ) (now : ℤ) : Option DeadlineInfo :=
  match timeoutMs with
  | none => none
  | some t => if t ≤ 0 then none else some ⟨t, now + t⟩

/-- `createTimeoutError` (lines 367-370): the label, the `timed out` marker,
and the budget suffix when `timeoutMs` is truthy. -/
def createTimeoutError (contextLabel : Option String) (timeoutMs : ℤ) : String :=
  let suffix :=
    if timeoutMs ≠ 0 then " after " ++ jsNumToString timeoutMs ++ " ms" else ""
  contextLabel.getD "Execution" ++ (" timed out" ++ suffix)

/-- A host `Error`: message plus host stack (abstracted). -/
structure JsError where
  message : String
  stack : Option String
deriving DecidableEq, Repr

/-- What an awaited host-side promise does: settles at an instant with a
result (or a rejection), or stays pending forever. -/
inductive AsyncOutcome (α : Type) where
  | settles (time : ℤ) (result : Except JsError α)
  | pending
deriving DecidableEq

/-- What the `await` of `withDeadline(promise, ...)` observes: a settlement at
some instant, or no settlement ever (only possible without a deadline). -/
inductive RaceResult (α : Type) where
  | settled (time : ℤ) (result : Except JsError α)
  | never
deriving DecidableEq

/-- `withDeadline` (lines 338-365): no deadline passes the promise through;
an exhausted budget rejects immediately with a labeled timeout error; an
active budget races the promise against a timer of `max 1 remaining`
milliseconds, the earlier settlement winning. -/
def withDeadlineModel (promise : AsyncOutcome α) (deadlineInfo : Option DeadlineInfo)
    (contextLabel : Option String) (now : ℤ) : RaceResult α :=
  match deadlineInfo with
  | none =>
    match promise with
    | .settles t r => .settled t r
    | .pending => .never
  | some d =>
    let remaining := d.deadline - now
    if remaining ≤ 0 then
      .settled now (.error ⟨createTimeoutError contextLabel d.timeoutMs, none⟩)
    else
      let fireTime := now + max 1 remaining
      match promise with
      | .pending =>
        .settled fireTime (.error ⟨createTimeoutError contextLabel d.timeoutMs, none⟩)
      | .settles t r =>
        if t < fireTime then .settled t r
        else .settled fireTime
          (.error ⟨createTimeoutError contextLabel d.timeoutMs, none⟩)

/-- What `vm.resolvePromise` resolves to: the guest value, or the converted
guest error (`convertQuickjsError`: message and optional guest stack). -/
inductive SettledResult where
  | value (v : JsValue)
  | error (message : String) (stack : Option String)
deriving DecidableEq

/-- The host-observable behavior of one evaluation: either `vm.evalCode`
returned an error object (parse error or early synchronous throw), or it
produced a promise handle after `duration` milliseconds of synchronous
execution, whose settlement is described by the oracle. Guest runtime
exceptions and rejected host capability calls surface as a settlement with
`SettledResult.error`. -/
inductive EvalOutcome where
  | evalError (duration : ℤ) (message : String) (stack : Option String)
  | evalPromise (duration : ℤ) (settlement : AsyncOutcome SettledResult)
deriving DecidableEq

/-- Oracle for one `executeCodeBlock` call: evaluation behavior plus the
console entries captured during it. -/
structure GuestScriptBehavior where
  outcome : EvalOutcome
  logs : List LogEntry

/-- `ExecutionResult`: the two object literals of lines 70-76 and 79-85.
`Option` captures which keys are present; `errorStack` is present on every
failure and may hold `null` (the inner `Option`); `durationMs` is a plain
field because both literals always carry it. -/
structure ExecutionResult where
  success : Bool
  value : Option JsValue := none
  formattedValue : Option String := none
  logs : List LogEntry
  errorMessage : Option String := none
  errorStack : Option (Option String) := none
  durationMs : ℤ
deriving DecidableEq, Repr

/-- The catch block (lines 77-85): `errorMessage` from the error message,
`errorStack` present (the guest stack when one was recorded, otherwise the
abstracted host stack / null). -/
def failureResult (logs : List LogEntry) (message : String)
    (quickjsStack : Option String) (durationMs : ℤ) : ExecutionResult :=
  { success := false, logs := logs, errorMessage := some message,
    errorStack := some quickjsStack, durationMs := durationMs }

/-- `executeCodeBlock` (lines 13-90) over the guest oracle: eval errors and
rejected settlements are thrown as `QuickJSExecutionError` and converted by
the catch block; a timeout rejection from `withDeadline` takes the same path;
a resolved value yields the success literal. `none` is the one behavior that
is not a return: an unbounded call on a never-settling promise waits forever
(it still does not throw). -/
def executeCodeBlockModel (g : GuestScriptBehavior) (timeoutMs : Option ℤ) :
    Option ExecutionResult :=
  let deadlineInfo := createDeadlineInfo timeoutMs 0
  match g.outcome with
  | .evalError d msg stk => some (failureResult g.logs msg stk d)
  | .evalPromise d settlement =>
    match withDeadlineModel settlement deadlineInfo (some "code execution") d with
    | .never => none
    | .settled t (.error e) => some (failureResult g.logs e.message e.stack t)
    | .settled t (.ok (.error msg stk)) => some (failureResult g.logs msg stk t)
    | .settled t (.ok (.value v)) =>
      some { success := true, value := some v, logs := g.logs,
             formattedValue := some (runnerStringify v), durationMs := t }

theorem withDeadlineModel_never_iff (promise : AsyncOutcome α)
    (dl : Option DeadlineInfo) (label : Option String) (now : ℤ) :
    withDeadlineModel promise dl label now = .never ↔
      (dl = none ∧ promise = .pending) := by
  cases dl with
  | none => cases promise <;> simp [withDeadlineModel]
  | some d =>
    cases promise <;> simp only [withDeadlineModel] <;> split_ifs <;> simp

/-! ## C2: execute never throws; all failure is encoded in the result -/

/-- C2: for every script behavior, timeout value, and capability outcome
encoded in the oracle, `executeCodeBlock` either returns an
`ExecutionResult` — a success, or a failure carrying `success := false` with
`errorMessage` and `errorStack` both present, covering guest parse errors,
guest runtime exceptions, host capability rejections, and timeouts — or (the
only non-returning behavior, possible only for an unbounded timeout over a
never-settling promise) waits forever; no path throws to the caller. -/
theorem c2_execute_never_throws (g : GuestScriptBehavior) (timeoutMs : Option ℤ) :
    match executeCodeBlockModel g timeoutMs with
    | some r => r.success = true ∨
        (r.success = false ∧ r.errorMessage.isSome = true ∧ r.errorStack.isSome = true)
    | none => ∃ d, g.outcome = .evalPromise d .pending ∧
        createDeadlineInfo timeoutMs 0 = none := by
  obtain ⟨outcome, logs⟩ := g
  cases outcome with
  | evalError d msg stk =>
    simp [executeCodeBlockModel, failureResult]
  | evalPromise d settlement =>
    simp only [executeCodeBlockModel]
    cases hw : withDeadlineModel settlement (createDeadlineInfo timeoutMs 0)
        (some "code execution") d with
    | never =>
      obtain ⟨hdl, hpend⟩ := (withDeadlineModel_never_iff _ _ _ _).mp hw
      exact ⟨d, by rw [hpend], hdl⟩
    | settled t r =>
      cases r with
      | error e => simp [failureResult]
      | ok sr => cases sr with
        | value v => simp
        | error msg stk => simp [failureResult]

/-! ## C9: exactly one of value / errorMessage, durationMs always present -/

/-- C9: every `ExecutionResult` returned by `executeCodeBlock` populates
`value` exactly when `success` is true and `errorMessage` exactly when
`success` is false (never both); `durationMs` is a mandatory field of the
result record, present in both result literals. -/
theorem c9_result_exclusivity (g : GuestScriptBehavior) (timeoutMs : Option ℤ)
    (r : ExecutionResult) (h : executeCodeBlockModel g timeoutMs = some r) :
    (r.value.isSome = true ↔ r.success = true) ∧
    (r.errorMessage.isSome = true ↔ r.success = false) := by
  obtain ⟨outcome, logs⟩ := g
  cases outcome with
  | evalError d msg stk =>
    simp [executeCodeBlockModel, failureResult] at h
    rw [← h]
    simp [failureResult]
  | evalPromise d settlement =>
    simp only [executeCodeBlockModel] at h
    cases hw : withDeadlineModel settlement (createDeadlineInfo timeoutMs 0)
        (some "code execution") d with
    | never => rw [hw] at h; simp at h
    | settled t res =>
      rw [hw] at h
      cases res with
      | error e =>
        simp only [Option.some.injEq] at h
        rw [← h]; simp [failureResult]
      | ok sr => cases sr with
        | value v =>
          simp only [Option.some.injEq] at h
          rw [← h]; simp
        | error msg stk =>
          simp only [Option.some.injEq] at h
          rw [← h]; simp [failureResult]

/-- Witness for C9 at a concrete oracle: a script resolving to `null` after
2 ms under a 1000 ms budget. -/
theorem c9_result_exclusivity_witness :
    ((some (JsValue.nullV) : Option JsValue).isSome = true ↔ true = true) ∧
    ((none : Option String).isSome = true ↔ true = false) :=
  c9_result_exclusivity
    ⟨.evalPromise 1 (.settles 2 (.ok (.value .nullV))), []⟩ (some 1000)
    { success := true, value := some .nullV, logs := [],
      formattedValue := some "null", durationMs := 2 }
    (by decide)

/-! ## C6: non-terminating scripts time out -/

/-- What the host observes of a non-terminating script under budget `T`:
either the wrapped promise never settles (an `await` that never resolves), or
the synchronous `vm.evalCode` phase only returned once the deadline had
already passed — the interrupt handler installed from `deadlineInfo.deadline`
fires no earlier than the deadline, so a synchronous infinite loop such as
`while(true){}` holds `evalCode` at least `T` milliseconds. -/
def NonTerminatingBehavior (g : GuestScriptBehavior) (T : ℤ) : Prop :=
  ∃ d settlement, g.outcome = .evalPromise d settlement ∧
    (settlement = .pending ∨ T ≤ d)

theorem timeout_message_split (s : String) :
    "code execution" ++ (" timed out" ++ s) = "code execution " ++ ("timed out" ++ s) := by
  rw [← str_append_assoc, ← str_append_assoc]
  have h : ("code execution" ++ " timed out" : String) = "code execution " ++ "timed out" := by
    decide
  rw [h]

/-- C6: for every non-terminating script submitted with a positive
`timeoutMs = T`, `execute` returns `success := false` with the timeout-labeled
error of the `code execution` race, whose message contains `timed out`. -/
theorem c6_nonterminating_script_times_out (T : ℤ) (hT : 0 < T)
    (g : GuestScriptBehavior) (hg : NonTerminatingBehavior g T) :
    ∃ r, executeCodeBlockModel g (some T) = some r ∧ r.success = false ∧
      ∃ post, r.errorMessage = some ("code execution " ++ ("timed out" ++ post)) := by
  obtain ⟨d, settlement, houtcome, hcase⟩ := hg
  have hdl : createDeadlineInfo (some T) 0 = some ⟨T, 0 + T⟩ := by
    simp [createDeadlineInfo, not_le.mpr hT]
  have hmsg : createTimeoutError (some "code execution") T =
      "code execution " ++ ("timed out" ++ (" after " ++ jsNumToString T ++ " ms")) := by
    have hT0 : T ≠ 0 := ne_of_gt hT
    simp only [createTimeoutError, hT0, ne_eq, not_false_iff, if_true,
      Option.getD_some]
    exact timeout_message_split _
  obtain ⟨st, lg⟩ := g
  simp only at houtcome
  subst houtcome
  have key : ∃ t, executeCodeBlockModel ⟨.evalPromise d settlement, lg⟩ (some T) =
      some (failureResult lg (createTimeoutError (some "code execution") T) none t) := by
    rcases hcase with hpend | hle
    · subst hpend
      by_cases hrem : T ≤ d
      · exact ⟨d, by
          simp [executeCodeBlockModel, hdl, withDeadlineModel, sub_nonpos, hrem]⟩
      · exact ⟨d + max 1 (T - d), by
          simp [executeCodeBlockModel, hdl, withDeadlineModel, sub_nonpos, hrem]⟩
    · exact ⟨d, by
        simp [executeCodeBlockModel, hdl, withDeadlineModel, sub_nonpos, hle]⟩
  obtain ⟨t, ht⟩ := key
  exact ⟨_, ht, by simp [failureResult],
    ⟨" after " ++ jsNumToString T ++ " ms", by simp [failureResult, hmsg]⟩⟩

/-- Witness for C6 at the spec scenario `execute("while(true){}", 50)`: the
synchronous loop holds `evalCode` until the 50 ms deadline, after which the
interrupted promise settlement is irrelevant — the exhausted budget rejects
with the labeled timeout error. -/
theorem c6_nonterminating_script_times_out_witness :
    ∃ r, executeCodeBlockModel
        ⟨.evalPromise 50 (.settles 50 (.ok (.error "interrupted" none))), []⟩
        (some 50) = some r ∧
      r.success = false ∧
      ∃ post, r.errorMessage = some ("code execution " ++ ("timed out" ++ post)) :=
  c6_nonterminating_script_times_out 50 (by decide)
    ⟨.evalPromise 50 (.settles 50 (.ok (.error "interrupted" none))), []⟩
    ⟨50, .settles 50 (.ok (.error "interrupted" none)), rfl, Or.inr (by decide)⟩

/-! ## Delegate-task input normalization (`src/cli.js`, lines 156-210)

Duck-typed JavaScript values are represented by what the property accesses in
the source observe: a field of type `Option String` is `some s` exactly when
the property holds a string, `Option ℚ` is the result of a `Number(...)`
conversion (`none` for a non-finite result), and an `Option (List _)` is
`some` exactly when `Array.isArray` holds. -/

/-- One entry of `rawInput.contextArtifacts`. -/
inductive RawArtifactEntry where
  | notObject
  | object (path : Option String) (description : Option String)
      (last_updated : Option String)
deriving DecidableEq

/-- A normalized artifact descriptor (`description`/`last_updated` are
`undefined` when empty). -/
structure DelegateArtifact where
  path : String
  description : Option String
  last_updated : Option String
deriving DecidableEq, Repr

/-- The per-entry mapping inside `normalizeDelegateTaskInput` (lines 182-201):
non-objects and entries without a non-empty trimmed `path` string become
`null` and are filtered out. -/
def normalizeContextArtifact : RawArtifactEntry → Option DelegateArtifact
  | .notObject => none
  | .object p d u =>
    let pathText := jsTrim (p.getD "")
    if pathText = "" then none
    else
      let descriptionText := jsTrim (d.getD "")
      let updatedText := jsTrim (u.getD "")
      some { path := pathText,
             description := if descriptionText = "" then none else some descriptionText,
             last_updated := if updatedText = "" then none else some updatedText }

/-- The raw argument of `sdk.delegateTask`. -/
inductive RawDelegateInput where
  | notObject
  | object (task : Option String) (maxIterations : Option ℚ)
      (contextArtifacts : Option (List RawArtifactEntry))
deriving DecidableEq

/-- `DelegateTaskInput` after normalization. -/
structure DelegateTaskInput where
  task : String
  contextArtifacts : List DelegateArtifact
  maxIterations : ℤ
deriving DecidableEq, Repr

/-- The cap closure (lines 165-171): a finite positive `maxIterationsCap`
is floored, anything else falls back to 6. -/
def delegateCap (maxIterationsCap : Option ℚ) : ℤ :=
  match maxIterationsCap with
  | some q => if 0 < q then ⌊q⌋ else 6
  | none => 6

/-- `normalizeDelegateTaskInput` (lines 156-210): validate the object and the
task string, clamp the requested iterations to `[1, cap]` via
`Math.max(1, Math.min(requested, cap))`, and drop malformed artifacts. -/
def normalizeDelegateTaskInput (rawInput : RawDelegateInput)
    (maxIterationsCap : Option ℚ) : Except SdkError DelegateTaskInput :=
  match rawInput with
  | .notObject => .error (.jsError "sdk.delegateTask requires an input object.")
  | .object taskField maxIterationsField contextArtifactsField =>
    let task := jsTrim (taskField.getD "")
    if task = "" then
      .error (.jsError "sdk.delegateTask requires a non-empty task string.")
    else
      let cap := delegateCap maxIterationsCap
      let normalizedIterations : ℤ :=
        match maxIterationsField with
        | some q => if 0 < q then ⌊q⌋ else cap
        | none => cap
      let effectiveIterations := max 1 (min normalizedIterations cap)
      let contextArtifacts :=
        match contextArtifactsField with
        | some entries => entries.filterMap normalizeContextArtifact
        | none => []
      .ok { task := task, contextArtifacts := contextArtifacts,
            maxIterations := effectiveIterations }

/-- C8: `delegateTask` input normalization rejects a missing or empty task,
clamps the requested `maxIterations` into `[1, cap]` (with parent cap 6 a
request of 10 yields an effective 6), and drops context artifact entries
lacking a path string rather than failing the call. -/
theorem c8_normalizeDelegateTaskInput_spec :
    (∀ cap, normalizeDelegateTaskInput .notObject cap =
      .error (.jsError "sdk.delegateTask requires an input object.")) ∧
    (∀ t mi as cap, jsTrim (t.getD "") = "" →
      normalizeDelegateTaskInput (.object t mi as) cap =
        .error (.jsError "sdk.delegateTask requires a non-empty task string.")) ∧
    (normalizeDelegateTaskInput (.object (some "x") (some 10) none) (some 6) =
      .ok ⟨"x", [], 6⟩) ∧
    (∀ t mi as cap out,
      normalizeDelegateTaskInput (.object t mi as) cap = .ok out →
      1 ≤ out.maxIterations ∧ out.maxIterations ≤ max 1 (delegateCap cap)) ∧
    (normalizeContextArtifact .notObject = none) ∧
    (∀ d u, normalizeContextArtifact (.object none d u) = none) ∧
    (∀ t mi entries cap out,
      normalizeDelegateTaskInput (.object t mi (some entries)) cap = .ok out →
      out.contextArtifacts = entries.filterMap normalizeContextArtifact) := by
  refine ⟨?_, ?_, ?_, ?_, ?_, ?_, ?_⟩
  · intro cap; rfl
  · intro t mi as cap h
    simp [normalizeDelegateTaskInput, h]
  · decide
  · intro t mi as cap out h
    by_cases ht : jsTrim (t.getD "") = ""
    · simp [normalizeDelegateTaskInput, ht] at h
    · simp only [normalizeDelegateTaskInput, ht, if_false, Except.ok.injEq] at h
      rw [← h]
      constructor
      · exact le_max_left 1 _
      · exact max_le_max (le_refl 1) (min_le_right _ _)
  · rfl
  · intro d u; rfl
  · intro t mi entries cap out h
    by_cases ht : jsTrim (t.getD "") = ""
    · simp [normalizeDelegateTaskInput, ht] at h
    · simp only [normalizeDelegateTaskInput, ht, if_false, Except.ok.injEq] at h
      rw [← h]

/-- Witness for C8 at concrete inputs: a non-object input, a whitespace-only
task, the clamp scenario (request 10 against cap 6), and an artifact list
whose path-less entries are dropped while ` a.md ` is kept trimmed. -/
theorem c8_normalizeDelegateTaskInput_spec_witness :
    (normalizeDelegateTaskInput .notObject (some 6) =
      .error (.jsError "sdk.delegateTask requires an input object.")) ∧
    (normalizeDelegateTaskInput (.object (some "   ") (some 10) none) (some 6) =
      .error (.jsError "sdk.delegateTask requires a non-empty task string.")) ∧
    (1 ≤ (⟨"x", [], 6⟩ : DelegateTaskInput).maxIterations ∧
      (⟨"x", [], 6⟩ : DelegateTaskInput).maxIterations ≤
        max 1 (delegateCap (some 6))) ∧
    ((⟨"x", [⟨"a.md", none, none⟩], 6⟩ : DelegateTaskInput).contextArtifacts =
      [RawArtifactEntry.notObject, .object none (some "desc") none,
        .object (some " a.md ") none none].filterMap normalizeContextArtifact) :=
  ⟨c8_normalizeDelegateTaskInput_spec.1 (some 6),
   c8_normalizeDelegateTaskInput_spec.2.1 (some "   ") (some 10) none (some 6)
     (by decide),
   c8_normalizeDelegateTaskInput_spec.2.2.2.1 (some "x") (some 10) none (some 6)
     ⟨"x", [], 6⟩ (by decide),
   c8_normalizeDelegateTaskInput_spec.2.2.2.2.2.2 (some "x") (some 10)
     [.notObject, .object none (some "desc") none, .object (some " a.md ") none none]
     (some 6) ⟨"x", [⟨"a.md", none, none⟩], 6⟩ (by decide)⟩

/-! ## Sandbox capability wiring (`installSdk`, `session.js`, `cli.js`) -/

/-- The third parameter of `executeCodeBlock` (line 13): an options object
that may carry a delegate-task handler function (abstracted to its
presence over an arbitrary handler type `H`). -/
structure SandboxOptions (H : Type) where
  delegateTaskHandler : Option H := none

/-- The names `installSdk` (lines 157-197) defines on the guest `sdk` object,
in installation order; `delegateTask` is appended only when
`sandboxOptions.delegateTaskHandler` is a function (lines 184-193). -/
def installSdkNames (sandboxOptions : SandboxOptions H) : List String :=
  ["readFile", "writeFile", "listFiles", "deletePath", "exec"] ++
    (if sandboxOptions.delegateTaskHandler.isSome then ["delegateTask"] else [])

/-- The `AgentSession` options relevant to delegation wiring. -/
structure SessionOptions (H : Type) where
  delegateTaskHandler : Option H
  executionTimeoutMs : ℤ

/-- `cli.js` lines 26-32: the top-level session is constructed with
`delegateTaskHandler` set to the handler built by
`createDelegateTaskHandler`. -/
def cliMainSessionOptions (handler : H) (timeoutMs : ℤ) : SessionOptions H :=
  { delegateTaskHandler := some handler, executionTimeoutMs := timeoutMs }

/-- `cli.js` lines 138-145: the delegated child session is constructed with
`delegateTaskHandler: null`. -/
def cliDelegateSessionOptions (base : SessionOptions H) : SessionOptions H :=
  { base with delegateTaskHandler := none }

/-- `session.js` line 46: the loop calls
`executeCodeBlock(block, this.options.executionTimeoutMs)` with no third
argument, so inside `executeCodeBlock` the `sandboxOptions` parameter
defaults to `{}` — whatever handler the session options carry is not
forwarded. -/
def sessionLoopSandboxOptions (options : SessionOptions H) : SandboxOptions H :=
  {}

/-- C4 (code evaluation at the failing input): `installSdk` would install
`delegateTask` whenever a handler reaches it, but the session loop never
forwards one — the guest `sdk` of the top-level agent (options wired by
`cli.js` with a handler) lacks `delegateTask` exactly as the child session
does, contradicting the claim that it is present for the top-level agent. -/
theorem c4_delegateTask_not_installed_for_top_level (H : Type) (handler : H)
    (timeoutMs : ℤ) :
    "delegateTask" ∈ installSdkNames (⟨some handler⟩ : SandboxOptions H) ∧
    "delegateTask" ∉
      installSdkNames (sessionLoopSandboxOptions
        (cliMainSessionOptions handler timeoutMs)) ∧
    "delegateTask" ∉
      installSdkNames (sessionLoopSandboxOptions
        (cliDelegateSessionOptions (cliMainSessionOptions handler timeoutMs))) := by
  refine ⟨?_, ?_, ?_⟩
  · simp [installSdkNames]
  · show "delegateTask" ∉ installSdkNames
      ({ delegateTaskHandler := none } : SandboxOptions H)
    simp only [installSdkNames, Option.isSome_none, Bool.false_eq_true, if_false,
      List.append_nil]
    decide
  · show "delegateTask" ∉ installSdkNames
      ({ delegateTaskHandler := none } : SandboxOptions H)
    simp only [installSdkNames, Option.isSome_none, Bool.false_eq_true, if_false,
      List.append_nil]
    decide

/-! ## The `exec` capability

Modelled from the spec: the `exec` implementation of the workspace SDK is not
present in the captured sources — `quickjs-runner.js` lines 180-182 call
`workspaceSdk.exec(command, execOptions, deadlineInfo)` and the README and
system prompt declare its contract, but the captured revision of
`src/workspace-sdk.js` stops at `deletePath`. The definition below follows
the words of the spec (§4.4): run a shell command with a similarly confined
working directory, bounded by the shared deadline, resolving to
`{code, stdout, stderr}`. -/

/-- The options bag of `sdk.exec(command, { cwd?, timeoutMs? })`. -/
structure ExecOptions where
  cwd : Option String := none
  timeoutMs : Option ℤ := none
deriving DecidableEq

/-- The resolution value of `sdk.exec`: exit code and captured streams. -/
structure ExecResult where
  code : ℤ
  stdout : String
  stderr : String
deriving DecidableEq, Repr

/-- Oracle for one shell invocation: how long it ran and what it produced. -/
structure ShellBehavior where
  duration : ℤ
  exitCode : ℤ
  stdout : String
  stderr : String
deriving DecidableEq

def sdkErrorMessage : SdkError → String
  | .jsError m => m
  | .fsError c => c

/-- Modelled from the spec: `workspaceSdk.exec` — confine the working
directory with `resolveWithinWorkspace` (rejections become rejections of the
guest call), then run the command under the shared deadline. -/
def workspaceExec (rootSegs : List String) (shell : ShellBehavior)
    (command : String) (options : ExecOptions)
    (deadlineInfo : Option DeadlineInfo) (now : ℤ) : RaceResult ExecResult :=
  match resolveWithinWorkspace rootSegs (options.cwd.getD ".") with
  | .error e => .settled now (.error ⟨sdkErrorMessage e, none⟩)
  | .ok _ =>
    withDeadlineModel
      (.settles (now + shell.duration)
        (.ok ⟨shell.exitCode, shell.stdout, shell.stderr⟩))
      deadlineInfo (some "exec") now

/-- C3: the per-execution capability surface includes `exec` (see
`installSdkNames`), and every `sdk.exec(command, {cwd?, timeoutMs?})` call
whose confined working directory resolves and whose command completes within
the remaining budget resolves to `{code, stdout, stderr}` holding the shell
exit code and captured streams — both under an active deadline and without
one. -/
theorem c3_exec_resolves_within_budget (rootSegs : List String)
    (shell : ShellBehavior) (command : String) (options : ExecOptions)
    (d : DeadlineInfo) (now : ℤ) (A : List String)
    (hcwd : resolveWithinWorkspace rootSegs (options.cwd.getD ".") = .ok A)
    (hrem : 0 < d.deadline - now)
    (hfast : now + shell.duration < now + max 1 (d.deadline - now)) :
    ("exec" ∈ installSdkNames ({ } : SandboxOptions Unit)) ∧
    workspaceExec rootSegs shell command options (some d) now =
      .settled (now + shell.duration)
        (.ok ⟨shell.exitCode, shell.stdout, shell.stderr⟩) ∧
    workspaceExec rootSegs shell command options none now =
      .settled (now + shell.duration)
        (.ok ⟨shell.exitCode, shell.stdout, shell.stderr⟩) := by
  refine ⟨by simp [installSdkNames], ?_, ?_⟩
  · simp [workspaceExec, hcwd, withDeadlineModel, not_le.mpr hrem, hfast]
  · simp [workspaceExec, hcwd, withDeadlineModel]

/-- Witness for C3 at a concrete input: `echo hi` finishing after 5 ms in the
workspace root under a 1000 ms budget. -/
theorem c3_exec_resolves_within_budget_witness :
    ("exec" ∈ installSdkNames ({ } : SandboxOptions Unit)) ∧
    workspaceExec ["w"] ⟨5, 0, "hi\n", ""⟩ "echo hi" { } (some ⟨1000, 1000⟩) 0 =
      .settled (0 + 5) (.ok ⟨0, "hi\n", ""⟩) ∧
    workspaceExec ["w"] ⟨5, 0, "hi\n", ""⟩ "echo hi" { } none 0 =
      .settled (0 + 5) (.ok ⟨0, "hi\n", ""⟩) :=
  c3_exec_resolves_within_budget ["w"] ⟨5, 0, "hi\n", ""⟩ "echo hi" { }
    ⟨1000, 1000⟩ 0 ["w"] (by decide) (by decide) (by decide)

end CodeLoop
